import Mathlib

/-!
Verification of the privategpt email-ingestion pipeline.

Shallow embedding of `src/email_processor.py`, `src/enhanced_email_processor.py`
and `src/rag/privategpt_client.py`.  Pure logic (hashing, body extraction,
dedup decisions, counting) is translated directly; external effects (the HTTP
remote, the filesystem, the system clock) are passed in explicitly as values,
so every definition is executable.
-/

namespace PrivateGPT

/-- Outcome of `process_email_file` in the spec's vocabulary.  The Python
function returns a bare `bool`: `True` both when the file was freshly ingested
(`Processed`) and when its fingerprint was already in the index (the
`email_hash in self.processed_emails` branch, `Skipped`), `False` on any
failure (`Failed`).  `outcomeToBool` recovers the source's return value. -/
inductive Outcome where
| Processed
| Skipped
| Failed
deriving DecidableEq, BEq

/-- The truthiness of the Python return value of `process_email_file`. -/
def outcomeToBool : Outcome → Bool
| Outcome.Failed => false
| _ => true

/-- Metadata stored in the processed-emails index (`email_processor.py`
lines 126-133).  `source_file`, `content_type` and `processed_at` are carried
by the real dict as well but play no role in any claim; the dedup-relevant
fields are exactly these three. -/
structure EmailMeta where
  subject : String
  sender : String
  date : String
deriving DecidableEq

/-- The extraction result of `_extract_email_content`: the body text plus the
metadata fields used by the pipeline. -/
structure EmailData where
  subject : String
  sender : String
  date : String
  body : String
deriving DecidableEq

def metaOf (e : EmailData) : EmailMeta := ⟨e.subject, e.sender, e.date⟩

/-- `_generate_email_hash` (email_processor.py lines 61-64):
`content = f"{subject}|{sender}|{date}"; md5(content.encode()).hexdigest()`.
The MD5 hex digest is idealized as an injective encoding of the hashed
content (the spec's own "overwhelming probability" assumption); all
deduplication structure lives in the delimiter concatenation, which is
modelled exactly. -/
def generateEmailHash (subject sender date : String) : String :=
  subject ++ "|" ++ sender ++ "|" ++ date

def emailHashOf (e : EmailData) : String :=
  generateEmailHash e.subject e.sender e.date

/-- Result of one remote-ingestion attempt, covering both variants'
failure modes: the enhanced processor's failed health probe
(`privategpt_client.health_check` false), a `requests` connection error or
timeout (exception branch), or an HTTP response with some status code. -/
inductive RemoteResult where
| healthFail
| connError
| timeout
| status (code : Nat)
deriving DecidableEq

/-- `_ingest_to_private_gpt` of the BASIC variant (email_processor.py
lines 141-174), a single `POST /v1/ingest`: returns `True` exactly on an
HTTP 200 response; every `requests` exception (connection error, timeout)
or non-200 status returns `False`.  The enhanced variant's two-call
exchange is modelled separately by `ingestToPrivateGPTEnhanced`. -/
def ingestToPrivateGPT : RemoteResult → Bool
| RemoteResult.status code => code == 200
| _ => false

/-- One full remote exchange of the enhanced variant
(enhanced_email_processor.py lines 196-233 together with
rag/privategpt_client.py): the result of `health_check()`, the outcome of
the file-upload `POST /v1/ingest/file`, and the outcome of the follow-up
metadata `PUT /v1/ingest/.../metadata`.  The two HTTP fields range over
`connError`/`timeout`/`status`; the probe is the separate boolean, so
`healthFail` does not occur in them. -/
structure EnhancedRemote where
  healthOk : Bool
  upload : RemoteResult
  metaPut : RemoteResult
deriving DecidableEq

/-- `PrivateGPTClient.update_metadata` (privategpt_client.py lines 88-97):
`True` exactly on a 200 response; any exception is caught inside the
method and yields `False`. -/
def updateMetadata : RemoteResult → Bool
| RemoteResult.status code => code == 200
| _ => false

/-- `EnhancedEmailProcessor._ingest_to_private_gpt` (lines 196-233): fail
when the health probe fails; then `PrivateGPTClient.ingest_file` raises on
an exception or a non-200 upload response (caught by the processor,
`False`), while on a 200 upload it calls `update_metadata` and DISCARDS
its boolean return (privategpt_client.py lines 52-54), handing back the
file id — so the processor returns `True` whatever the metadata PUT
answered.  (A 200 upload is taken to carry an id, as the API promises.) -/
def ingestToPrivateGPTEnhanced (r : EnhancedRemote) : Bool :=
  if r.healthOk then
    match r.upload with
    | RemoteResult.status code =>
      if code == 200 then
        let _ := updateMetadata r.metaPut
        true
      else false
    | _ => false
  else false

/-- The in-memory `processed_emails` dict: fingerprint to metadata. -/
def Index : Type := List (String × EmailMeta)

instance : DecidableEq Index := by
  unfold Index
  infer_instance

/-- `email_hash in self.processed_emails` (membership test in the dict). -/
def hasKey (st : Index) (h : String) : Bool :=
  st.any (fun p => p.1 == h)

/-- Insertion `self.processed_emails[email_hash] = metadata`. -/
def insertKey (st : Index) (h : String) (m : EmailMeta) : Index :=
  (h, m) :: st

/-- Everything observable about one `process_email_file` call: the outcome,
the resulting in-memory index, whether the remote service was contacted
(`_ingest_to_private_gpt` invoked at all), and whether
`_save_processed_emails` was called. -/
structure ProcResult where
  outcome : Outcome
  index : Index
  contactedRemote : Bool
  savedIndex : Bool
deriving DecidableEq

/-- `process_email_file` (email_processor.py lines 176-211; the enhanced
variant at lines 235-266 is identical, its `email_hash` being the
`email_id` metadata field which is the same `_generate_email_hash` of the
same triple).  `parse` is the result of `_extract_email_content` (`none`
models the `None` return on a parse failure); `remote` is the remote
service's behaviour were ingestion attempted. -/
def processEmailFile (remote : RemoteResult) (st : Index) (parse : Option EmailData) :
    ProcResult :=
  match parse with
  | none => ⟨Outcome.Failed, st, false, false⟩
  | some e =>
    let h := emailHashOf e
    if hasKey st h then ⟨Outcome.Skipped, st, false, false⟩
    else if ingestToPrivateGPT remote then
      ⟨Outcome.Processed, insertKey st h (metaOf e), true, true⟩
    else ⟨Outcome.Failed, st, true, false⟩

/-- `process_email_file` of the enhanced processor
(enhanced_email_processor.py lines 235-266), identical to the basic
pipeline except that the ingestion step is the two-call exchange
`ingestToPrivateGPTEnhanced` (its dedup key `metadata['email_id']` is the
same `_generate_email_hash` of the same triple). -/
def processEmailFileEnhanced (remote : EnhancedRemote) (st : Index)
    (parse : Option EmailData) : ProcResult :=
  match parse with
  | none => ⟨Outcome.Failed, st, false, false⟩
  | some e =>
    let h := emailHashOf e
    if hasKey st h then ⟨Outcome.Skipped, st, false, false⟩
    else if ingestToPrivateGPTEnhanced remote then
      ⟨Outcome.Processed, insertKey st h (metaOf e), true, true⟩
    else ⟨Outcome.Failed, st, true, false⟩

/-- `Path.name`: the component after the last slash. -/
def pathName (p : String) : String :=
  String.mk ((p.data.reverse.takeWhile (fun c => c ≠ '/')).reverse)

/-- `Path.suffix`: "." plus the part of the name after its last dot, when
that dot is neither the first nor the last character of the name; otherwise
the empty string (so ".bashrc" and "name." have no suffix). -/
def pathSuffix (p : String) : String :=
  let cs := (pathName p).data
  let rev := cs.reverse
  let after := rev.takeWhile (fun c => c ≠ '.')
  if after.length < rev.length ∧ 0 < after.length ∧ after.length + 1 < cs.length then
    String.mk ('.' :: after.reverse)
  else ""

/-- ASCII `str.lower()`. -/
def lowerStr (s : String) : String :=
  String.mk (s.data.map Char.toLower)

/-- `email_extensions = {'.eml', '.mbox', '.elmx'}`. -/
def emailExtensions : List String := [".eml", ".mbox", ".elmx"]

/-- `file_path.suffix.lower() in email_extensions`. -/
def hasEmailExt (p : String) : Bool :=
  emailExtensions.contains (lowerStr (pathSuffix p))

/-- One file seen by the directory scan: its path, its extraction result,
and the remote service's behaviour at the moment it is processed. -/
structure FileEntry where
  path : String
  parse : Option EmailData
  remote : RemoteResult

/-- `process_directory` (email_processor.py lines 213-238): iterate the
files, filter by extension, call `process_email_file`, and count the calls
that returned `True` (i.e. whose outcome is Processed or Skipped — the
source counts the boolean return value).  Returns the count and the final
index. -/
def processDirectory (st : Index) (files : List FileEntry) : Nat × Index :=
  match files with
  | [] => (0, st)
  | fe :: rest =>
    if hasEmailExt fe.path then
      let r := processEmailFile fe.remote st fe.parse
      let n := processDirectory r.index rest
      ((if outcomeToBool r.outcome then 1 else 0) + n.1, n.2)
    else processDirectory st rest

/-- The per-file outcomes of the same scan, in order, for the files whose
extension matches; used to state what `processDirectory` counts. -/
def processDirOutcomes (st : Index) (files : List FileEntry) : List Outcome × Index :=
  match files with
  | [] => ([], st)
  | fe :: rest =>
    if hasEmailExt fe.path then
      let r := processEmailFile fe.remote st fe.parse
      let n := processDirOutcomes r.index rest
      (r.outcome :: n.1, n.2)
    else processDirOutcomes st rest

/-- Number of `Processed` outcomes in a list (successful remote ingestions). -/
def countProcessed (os : List Outcome) : Nat :=
  os.countP (fun o => o == Outcome.Processed)

/-- Number of outcomes that are `Processed` or `Skipped`. -/
def countProcessedOrSkipped (os : List Outcome) : Nat :=
  os.countP (fun o => o == Outcome.Processed || o == Outcome.Skipped)

/-- One (ctype, content, filename) record for a non-container MIME part. -/
structure LeafPart where
  ctype : String
  content : String
  filename : Option String
deriving DecidableEq

/-- The parsed MIME part tree of one message: either a single part (the
message itself when `msg.is_multipart()` is false) or a container with
subparts.  Container parts carry no text content and their
`get_content_type()` is a `multipart/...` value, never `text/plain` or
`text/html`, so only leaves matter to the body walk; containers also carry
no filename for `get_filename()`. -/
inductive Part where
| leaf (ctype : String) (content : String) (filename : Option String)
| multi (parts : List Part)

mutual

/-- The leaves of `msg.walk()` in depth-first, left-to-right order (Python's
walk yields a part, then recursively each of its subparts). -/
def Part.leavesList : Part → List LeafPart
| Part.leaf ct c fn => [⟨ct, c, fn⟩]
| Part.multi ps => leavesListAll ps

def leavesListAll : List Part → List LeafPart
| [] => []
| p :: ps => Part.leavesList p ++ leavesListAll ps

end

/-- The first `text/plain` leaf met by the walk (the `for part in
msg.walk(): if part.get_content_type() == "text/plain": ...; break` loop). -/
def firstPlainContent (root : Part) : Option String :=
  (root.leavesList.find? (fun lf => lf.ctype == "text/plain")).map LeafPart.content

/-- The first `text/html` leaf met by the walk. -/
def firstHtmlContent (root : Part) : Option String :=
  (root.leavesList.find? (fun lf => lf.ctype == "text/html")).map LeafPart.content

/-- Helper for `re.sub('<[^<]+?>', '', s)`: after an opening '<' and one
already-consumed non-'<' character, scan for the closing '>', failing on a
'<' or on end of input; returns the characters after the '>' on success. -/
def tagEnd : List Char → Option (List Char)
| [] => none
| c :: cs => if c = '>' then some cs else if c = '<' then none else tagEnd cs

/-- `re.sub('<[^<]+?>', '', s)` on a character list, with explicit fuel
(one unit per step; the string's length is always enough since every step
consumes at least one character, so the fuel-exhausted branch is never
reached from `stripTags`).  At each '<' the lazy pattern matches the
shortest `<[^<]+?>` span — at least one character between the brackets,
none of them '<' — and removes it; on no match the '<' is kept and
scanning resumes after it. -/
def stripTagsFuel : Nat → List Char → List Char
| 0, l => l
| _ + 1, [] => []
| fuel + 1, c :: cs =>
  if c = '<' then
    match cs with
    | [] => ['<']
    | c2 :: cs2 =>
      if c2 = '<' then '<' :: stripTagsFuel fuel cs
      else
        match tagEnd cs2 with
        | some rest => stripTagsFuel fuel rest
        | none => '<' :: stripTagsFuel fuel cs
  else c :: stripTagsFuel fuel cs

/-- The source's "Simple HTML to text conversion". -/
def stripTags (s : String) : String :=
  String.mk (stripTagsFuel s.data.length s.data)

/-- Python `str.strip()` whitespace (ASCII part). -/
def isPyWhitespace (c : Char) : Bool :=
  c = ' ' ∨ c = '\t' ∨ c = '\n' ∨ c = '\r' ∨ c = '\x0b' ∨ c = '\x0c'

/-- `body_text.strip()`. -/
def pyStrip (s : String) : String :=
  String.mk (((s.data.dropWhile isPyWhitespace).reverse.dropWhile isPyWhitespace).reverse)

/-- The no-content sentinel (email_processor.py line 124). -/
def noTextSentinel : String := "[No text content found]"

/-- Lines 121-124: `body_text = body_text.strip(); if not body_text:
body_text = "[No text content found]"`. -/
def finalizeBody (s : String) : String :=
  if pyStrip s = "" then noTextSentinel else pyStrip s

/-- Body selection (email_processor.py lines 98-124).  Multipart: take the
first `text/plain` leaf of the walk; if the accumulated text is the empty
string (`if not body_text`) — because there is no plain leaf or because the
first one is empty — fall back to the first `text/html` leaf with
`stripTags` applied.  Single part: dispatch on the root's content type.
Then strip and substitute the sentinel. -/
def extractBody (root : Part) : String :=
  let bodyText :=
    match root with
    | Part.multi _ =>
      let bt := (firstPlainContent root).getD ("")
      if bt = "" then ((firstHtmlContent root).map stripTags).getD ("") else bt
    | Part.leaf ct c _ =>
      if ct == "text/plain" then c
      else if ct == "text/html" then stripTags c
      else ""
  finalizeBody bodyText

/-- The amended claim's description of the body-selection policy, stated
uniformly over the depth-first leaf walk, for refinement comparison with
`extractBody`: take the first text/plain part's content; if there is no
plain part or its content is the empty string, take instead the first
text/html part with angle-bracket spans removed (empty if none exists);
finally strip surrounding whitespace and substitute the sentinel for an
empty result. -/
def specBody (root : Part) : String :=
  let sel :=
    match firstPlainContent root with
    | some c =>
      if c = "" then ((firstHtmlContent root).map stripTags).getD ("") else c
    | none => ((firstHtmlContent root).map stripTags).getD ("")
  finalizeBody sel

/-- The `Date:` header as the pipeline sees it: absent (or empty, since
`msg.get('date', '')` followed by `if date_str:` treats the two alike),
present but rejected by `email.utils.parsedate_to_datetime` (the bare
`except` branch), or successfully parsed.  The external stdlib date parser
is abstracted by this constructor split; `iso` carries
`parsedate_to_datetime(raw).isoformat()`. -/
inductive DateHeader where
| absent
| unparsable (raw : String)
| parsed (iso : String)
deriving DecidableEq

/-- Lines 88-96: absent or unparsable dates become
`datetime.now().isoformat()`, the current processing time. -/
def extractDateFormatted : DateHeader → String → String
| DateHeader.absent, now => now
| DateHeader.unparsable _, now => now
| DateHeader.parsed iso, _ => iso

/-- The header fields `_extract_email_content` reads. -/
structure Headers where
  subject : Option String
  sender : Option String
  date : DateHeader

/-- `_extract_email_content` on an already-parsed message (headers plus
part tree), with the processing clock `now` passed explicitly.  Applies the
source's header defaults (lines 84-86) and the date and body logic above. -/
def extractEmailContent (hs : Headers) (root : Part) (now : String) : EmailData :=
  { subject := hs.subject.getD ("No Subject")
  , sender := hs.sender.getD ("Unknown Sender")
  , date := extractDateFormatted hs.date now
  , body := extractBody root }

/-- `"has_attachments": bool(msg.get_payload())` (enhanced processor line
140): for a multipart message `get_payload()` is the list of subparts, for
a single part it is the payload string; `bool` of either is nonemptiness. -/
def hasAttachments : Part → Bool
| Part.multi ps => !ps.isEmpty
| Part.leaf _ c _ => !(c == "")

/-- `"attachment_count": len([p for p in msg.walk() if p.get_filename()])`
(line 141); `get_filename()` is truthy only for a present, non-empty
filename. -/
def attachmentCount (root : Part) : Nat :=
  (root.leavesList.filter (fun lf => lf.filename.getD ("") != "")).length

/-- JSON rendering of one metadata record, for the persisted index file. -/
def serializeMeta (m : EmailMeta) : String :=
  "\x7b\"subject\": \"" ++ m.subject ++ "\", \"sender\": \"" ++ m.sender ++
    "\", \"date\": \"" ++ m.date ++ "\"\x7d"

/-- `json.dump(self.processed_emails, f)`: the serialized index object. -/
def serializeIndex (st : Index) : String :=
  "\x7b" ++ String.intercalate (", ")
    (st.map (fun p => "\"" ++ p.1 ++ "\": " ++ serializeMeta p.2)) ++ "\x7d"

/-- `_save_processed_emails` (lines 56-59) opens the index file with mode
'w' — truncating it immediately — and then writes the serialization
sequentially.  A process kill during the call leaves on disk some prefix of
the new serialization (the empty file right after the truncating open, the
full new contents once the write completed); the pre-call contents are
destroyed by the open.  This lists the on-disk states observable at every
crash point, in order; the last is the completed write. -/
def saveCrashStates (st : Index) : List String :=
  (List.range ((serializeIndex st).data.length + 1)).map
    (fun i => String.mk ((serializeIndex st).data.take i))

/-- What is on disk at the index path when `_load_processed_emails` runs:
nothing, a file the process may not read (`open` raises `OSError`), a file
whose contents `json.load` rejects (`json.JSONDecodeError`), or a valid
JSON index.  The external `json.load` is abstracted by the
invalid/valid constructor split. -/
inductive DiskState where
| absent
| unreadable
| invalidJson (raw : String)
| validJson (idx : Index)

inductive LoadError where
| osError
deriving DecidableEq

/-- `_load_processed_emails` (lines 46-54): no file means a fresh empty
index; a `json.JSONDecodeError` is caught and logged, yielding the empty
index; but the `try` only guards `JSONDecodeError`, so an `OSError` from
`open` on an existing-but-unreadable file propagates (an uncaught
exception, modelled as `Except.error`). -/
def loadProcessedEmails : DiskState → Except LoadError Index
| DiskState.absent => Except.ok []
| DiskState.unreadable => Except.error LoadError.osError
| DiskState.invalidJson _ => Except.ok []
| DiskState.validJson idx => Except.ok idx

/-- Is `b` a UTF-8 continuation byte. -/
def isContByte (b : Nat) : Bool := decide (0x80 ≤ b ∧ b ≤ 0xBF)

/-- Valid second-byte range for a three-byte lead (E0 excludes overlongs,
ED excludes surrogates). -/
def cont2ForLead3 (b b2 : Nat) : Bool :=
  if b = 0xE0 then decide (0xA0 ≤ b2 ∧ b2 ≤ 0xBF)
  else if b = 0xED then decide (0x80 ≤ b2 ∧ b2 ≤ 0x9F)
  else isContByte b2

/-- Valid second-byte range for a four-byte lead (F0 excludes overlongs,
F4 caps at U+10FFFF). -/
def cont2ForLead4 (b b2 : Nat) : Bool :=
  if b = 0xF0 then decide (0x90 ≤ b2 ∧ b2 ≤ 0xBF)
  else if b = 0xF4 then decide (0x80 ≤ b2 ∧ b2 ≤ 0x8F)
  else isContByte b2

/-- UTF-8 decoding of a byte list into a stream of events: `some c` for a
decoded character, `none` for one decoding error (an invalid sequence,
consuming its maximal valid subpart, at least one byte).  This models
CPython's utf-8 codec, whose error handler decides what each `none`
becomes: `'ignore'` drops it, `'replace'` substitutes U+FFFD, `'strict'`
raises.  Fuel is one unit per event; the byte count is always enough since
every event consumes at least one byte. -/
def utf8TokensFuel : Nat → List Nat → List (Option Char)
| 0, _ => []
| _ + 1, [] => []
| fuel + 1, b :: bs =>
  if b < 0x80 then some (Char.ofNat b) :: utf8TokensFuel fuel bs
  else if 0xC2 ≤ b ∧ b ≤ 0xDF then
    match bs with
    | [] => [none]
    | b2 :: bs2 =>
      if isContByte b2 then
        some (Char.ofNat ((b - 0xC0) * 64 + (b2 - 0x80))) :: utf8TokensFuel fuel bs2
      else none :: utf8TokensFuel fuel bs
  else if 0xE0 ≤ b ∧ b ≤ 0xEF then
    match bs with
    | [] => [none]
    | b2 :: bs2 =>
      if cont2ForLead3 b b2 then
        match bs2 with
        | [] => [none]
        | b3 :: bs3 =>
          if isContByte b3 then
            some (Char.ofNat ((b - 0xE0) * 4096 + (b2 - 0x80) * 64 + (b3 - 0x80))) ::
              utf8TokensFuel fuel bs3
          else none :: utf8TokensFuel fuel bs2
      else none :: utf8TokensFuel fuel bs
  else if 0xF0 ≤ b ∧ b ≤ 0xF4 then
    match bs with
    | [] => [none]
    | b2 :: bs2 =>
      if cont2ForLead4 b b2 then
        match bs2 with
        | [] => [none]
        | b3 :: bs3 =>
          if isContByte b3 then
            match bs3 with
            | [] => [none]
            | b4 :: bs4 =>
              if isContByte b4 then
                some (Char.ofNat ((b - 0xF0) * 262144 + (b2 - 0x80) * 4096 +
                  (b3 - 0x80) * 64 + (b4 - 0x80))) :: utf8TokensFuel fuel bs4
              else none :: utf8TokensFuel fuel bs3
          else none :: utf8TokensFuel fuel bs2
      else none :: utf8TokensFuel fuel bs
  else none :: utf8TokensFuel fuel bs

def utf8Tokens (bs : List Nat) : List (Option Char) :=
  utf8TokensFuel bs.length bs

/-- `open(email_path, 'r', encoding='utf-8', errors='ignore')` then
`f.read()` (email_processor.py lines 77-78): decode dropping every invalid
sequence. -/
def decodeIgnore (bs : List Nat) : String :=
  String.mk ((utf8Tokens bs).filterMap id)

/-- The same read with `errors='replace'`: each invalid sequence becomes
U+FFFD. -/
def decodeReplace (bs : List Nat) : String :=
  String.mk ((utf8Tokens bs).map (fun t => t.getD (Char.ofNat 0xFFFD)))

/-- The same read with `errors='strict'`: any invalid sequence raises. -/
def decodeStrict (bs : List Nat) : Option String :=
  if (utf8Tokens bs).all Option.isSome then
    some (String.mk ((utf8Tokens bs).filterMap id))
  else none

/-! ## Helper lemmas -/

theorem hasKey_insertKey_self (st : Index) (h : String) (m : EmailMeta) :
    hasKey (insertKey st h m) h = true := by
  simp [hasKey, insertKey]

theorem string_data_inj {s t : String} (h : s.data = t.data) : s = t :=
  congrArg String.mk h

theorem string_data_append (s t : String) : (s ++ t).data = s.data ++ t.data := rfl

/-! ## Claim theorems -/

/-- Claim C1 (confirmed): if the file's fingerprint is already in the
ProcessedIndex, `process_email_file` returns Skipped, leaves the index
unchanged, does not contact the remote service and does not rewrite the
index file; consequently two successive calls on the same file (same
subject/sender/date, hence same fingerprint) perform at most one successful
remote ingestion between them. -/
theorem processEmailFile_idempotent (st : Index) (e : EmailData) (r1 r2 : RemoteResult) :
    (hasKey st (emailHashOf e) = true →
      processEmailFile r1 st (some e) = ⟨Outcome.Skipped, st, false, false⟩) ∧
    countProcessed [(processEmailFile r1 st (some e)).outcome,
      (processEmailFile r2 (processEmailFile r1 st (some e)).index (some e)).outcome] ≤ 1 := by
  constructor
  · intro h
    simp [processEmailFile, h]
  · by_cases hk : hasKey st (emailHashOf e)
    · simp only [processEmailFile, hk, if_true, if_pos]
      decide
    · cases hr1 : ingestToPrivateGPT r1
      · simp only [processEmailFile, hk, hr1, Bool.false_eq_true, if_false, if_neg]
        cases hr2 : ingestToPrivateGPT r2 <;>
          simp [hk, hr2, countProcessed, List.countP_cons] <;> decide
      · simp only [processEmailFile, hk, hr1, if_true, if_neg, Bool.false_eq_true]
        simp [hasKey_insertKey_self, countProcessed, List.countP_cons]
        decide

/-- Witness for C1 at a concrete already-processed file. -/
theorem processEmailFile_idempotent_witness :
    processEmailFile (RemoteResult.status 200) [(("s|f|d"), ⟨"s", "f", "d"⟩)]
      (some ⟨"s", "f", "d", "b"⟩) =
      ⟨Outcome.Skipped, [(("s|f|d"), ⟨"s", "f", "d"⟩)], false, false⟩ ∧
    countProcessed [(processEmailFile (RemoteResult.status 200)
        [(("s|f|d"), ⟨"s", "f", "d"⟩)] (some ⟨"s", "f", "d", "b"⟩)).outcome,
      (processEmailFile (RemoteResult.status 200)
        (processEmailFile (RemoteResult.status 200) [(("s|f|d"), ⟨"s", "f", "d"⟩)]
          (some ⟨"s", "f", "d", "b"⟩)).index (some ⟨"s", "f", "d", "b"⟩)).outcome] ≤ 1 := by
  have h := processEmailFile_idempotent [(("s|f|d"), ⟨"s", "f", "d"⟩)]
    ⟨"s", "f", "d", "b"⟩ (RemoteResult.status 200) (RemoteResult.status 200)
  exact ⟨h.1 (by decide), h.2⟩

/-- Claim C5 counterexample: in the enhanced variant, the health probe
succeeds and the file-upload POST returns 200, but the metadata PUT
returns HTTP 500 — a non-2xx status during the remote ingestion attempt.
`update_metadata` reports False, yet `ingest_file` discards that boolean,
`_ingest_to_private_gpt` returns True, and `process_email_file` returns
Processed with the fingerprint inserted into the ProcessedIndex and the
index persisted — refuting "any non-2xx HTTP status is a Failed outcome
and the ProcessedIndex is left unchanged". -/
theorem metadataPutFailure_still_processed :
    updateMetadata (RemoteResult.status 500) = false ∧
    ingestToPrivateGPTEnhanced
      ⟨true, RemoteResult.status 200, RemoteResult.status 500⟩ = true ∧
    processEmailFileEnhanced
      ⟨true, RemoteResult.status 200, RemoteResult.status 500⟩ []
      (some ⟨"s", "f", "d", "b"⟩) =
      ⟨Outcome.Processed, [(("s|f|d"), ⟨"s", "f", "d"⟩)], true, true⟩ :=
  ⟨by decide, by decide, by decide⟩

/-- Claim C5 (corrected): failure atomicity holds for every failure the
processor observes — in the basic variant any `_ingest_to_private_gpt`
False (exception or non-200 on the single ingest POST), in the enhanced
variant any failure of the health probe or of the file-upload POST: there
`process_email_file` returns Failed with the index unchanged and nothing
persisted, leaving the file eligible for retry.  BUT a non-2xx on the
enhanced variant's metadata-update PUT is invisible (its boolean return is
discarded), so with a healthy probe and a 200 upload the outcome is
Processed and the index IS updated and persisted, whatever the metadata
PUT answered. -/
theorem ingestionFailure_atomic (st : Index) (e : EmailData)
    (r : RemoteResult) (er er2 : EnhancedRemote)
    (hk : hasKey st (emailHashOf e) = false)
    (hr : ingestToPrivateGPT r = false)
    (her : ingestToPrivateGPTEnhanced er = false)
    (h2h : er2.healthOk = true)
    (h2u : er2.upload = RemoteResult.status 200) :
    processEmailFile r st (some e) = ⟨Outcome.Failed, st, true, false⟩ ∧
    processEmailFileEnhanced er st (some e) = ⟨Outcome.Failed, st, true, false⟩ ∧
    processEmailFileEnhanced er2 st (some e) =
      ⟨Outcome.Processed, insertKey st (emailHashOf e) (metaOf e), true, true⟩ := by
  obtain ⟨h2, up2, mp2⟩ := er2
  simp only at h2h h2u
  subst h2h
  subst h2u
  refine ⟨by simp [processEmailFile, hk, hr],
    by simp [processEmailFileEnhanced, hk, her], ?_⟩
  simp [processEmailFileEnhanced, ingestToPrivateGPTEnhanced, hk]

/-- Cancellation for the fingerprint delimiter: a '|'-free block followed by
'|' determines itself and the remainder. -/
theorem append_pipe_cancel (a : List Char) :
    ∀ (b r s : List Char), '|' ∉ a → '|' ∉ b →
      a ++ '|' :: r = b ++ '|' :: s → a = b ∧ r = s := by
  induction a with
  | nil =>
    intro b r s _ hb h
    cases b with
    | nil => simpa using h
    | cons c t =>
      simp only [List.nil_append, List.cons_append, List.cons.injEq] at h
      exact absurd (h.1 ▸ List.mem_cons_self c t) hb
  | cons c t ih =>
    intro b r s ha hb h
    cases b with
    | nil =>
      simp only [List.cons_append, List.nil_append, List.cons.injEq] at h
      exact absurd (h.1 ▸ List.mem_cons_self c t) ha
    | cons c2 t2 =>
      simp only [List.cons_append, List.cons.injEq] at h
      obtain ⟨rfl, h2⟩ := h
      have ht := ih t2 r s (fun hm => ha (List.mem_cons_of_mem c hm))
        (fun hm => hb (List.mem_cons_of_mem c hm)) h2
      exact ⟨by rw [ht.1], ht.2⟩

/-- Claim C2 counterexample: two different (subject, sender, date) triples
whose '|'-joined concatenations coincide produce the same fingerprint with
certainty — the hashed content strings are literally equal, so the MD5
digests are too; the failure is delimiter injection, not a hash collision,
so "different inputs produce different fingerprints with overwhelming
probability" fails as stated. -/
theorem generateEmailHash_collision :
    generateEmailHash ("a|b") ("c") ("d") = generateEmailHash ("a") ("b|c") ("d") ∧
    (("a|b", "c", "d") : String × String × String) ≠ ("a", "b|c", "d") :=
  ⟨by decide, by decide⟩

/-- Claim C2 (corrected): same inputs always give the same fingerprint; and
distinct triples give distinct hashed contents (hence, modulo the spec's
overwhelming-probability idealization of MD5, distinct fingerprints)
provided the subject and sender contain no '|' delimiter — without that
proviso the counterexample above collides exactly. -/
theorem generateEmailHash_det_inj (s f d s' f' d' : String)
    (hs : '|' ∉ s.data) (hf : '|' ∉ f.data)
    (hs' : '|' ∉ s'.data) (hf' : '|' ∉ f'.data) :
    generateEmailHash s f d = generateEmailHash s f d ∧
    (generateEmailHash s f d = generateEmailHash s' f' d' →
      s = s' ∧ f = f' ∧ d = d') := by
  refine ⟨rfl, fun h => ?_⟩
  have hd : (generateEmailHash s f d).data = (generateEmailHash s' f' d').data := by
    rw [h]
  simp only [generateEmailHash, string_data_append, List.append_assoc,
    List.singleton_append] at hd
  have hstep1 := append_pipe_cancel s.data s'.data
    (f.data ++ '|' :: d.data) (f'.data ++ '|' :: d'.data) hs hs' hd
  have hstep2 := append_pipe_cancel f.data f'.data d.data d'.data hf hf' hstep1.2
  exact ⟨string_data_inj hstep1.1, string_data_inj hstep2.1,
    string_data_inj hstep2.2⟩

/-- Witness for the corrected C2 at concrete delimiter-free fields. -/
theorem generateEmailHash_det_inj_witness :
    ('|' ∉ ("a").data ∧ '|' ∉ ("b").data) ∧
    generateEmailHash ("a") ("b") ("c") = generateEmailHash ("a") ("b") ("c") ∧
    (generateEmailHash ("a") ("b") ("c") = generateEmailHash ("a") ("b") ("c") →
      ("a" : String) = "a" ∧ ("b" : String) = "b" ∧ ("c" : String) = "c") :=
  ⟨⟨by decide, by decide⟩,
    generateEmailHash_det_inj ("a") ("b") ("c") ("a") ("b") ("c")
      (by decide) (by decide) (by decide) (by decide)⟩

/-- The boolean `process_email_file` returns is true exactly on the
Processed and Skipped outcomes. -/
theorem outcomeToBool_eq (o : Outcome) :
    outcomeToBool o = (o == Outcome.Processed || o == Outcome.Skipped) := by
  cases o <;> decide

/-- Claim C3 counterexample: a directory containing one email file whose
fingerprint is already in the index.  `process_directory` returns 1 — the
duplicate's `process_email_file` call returned True — although the number
of Processed outcomes is 0 (the single outcome is Skipped), refuting
"files whose outcome is Skipped do not contribute to the returned count". -/
theorem processDirectory_counts_skipped :
    (processDirectory [(("s|f|d"), ⟨"s", "f", "d"⟩)]
      [⟨"inbox/a.eml", some ⟨"s", "f", "d", "b"⟩, RemoteResult.status 200⟩]).1 = 1 ∧
    countProcessed (processDirOutcomes [(("s|f|d"), ⟨"s", "f", "d"⟩)]
      [⟨"inbox/a.eml", some ⟨"s", "f", "d", "b"⟩, RemoteResult.status 200⟩]).1 = 0 := by
  exact ⟨by decide, by decide⟩

/-- Claim C3 (corrected): for every directory, `process_directory` returns
exactly the number of matching files whose `process_email_file` outcome is
Processed OR Skipped — the source counts the boolean return value, which is
True for both; only Failed outcomes do not contribute. -/
theorem processDirectory_count (files : List FileEntry) :
    ∀ st : Index,
      (processDirectory st files).1 =
        countProcessedOrSkipped (processDirOutcomes st files).1 ∧
      (processDirectory st files).2 = (processDirOutcomes st files).2 := by
  induction files with
  | nil =>
    intro st
    simp [processDirectory, processDirOutcomes, countProcessedOrSkipped]
  | cons fe rest ih =>
    intro st
    by_cases he : hasEmailExt fe.path
    · simp only [processDirectory, processDirOutcomes, he, if_true]
      refine ⟨?_, (ih _).2⟩
      rw [countProcessedOrSkipped, List.countP_cons,
        ← countProcessedOrSkipped, (ih _).1, ← outcomeToBool_eq]
      exact Nat.add_comm _ _
    · simp only [processDirectory, processDirOutcomes, he, if_false]
      exact ih st

/-- The final strip-or-sentinel step never yields the empty string. -/
theorem finalizeBody_ne_empty (s : String) : finalizeBody s ≠ "" := by
  by_cases h : pyStrip s = ""
  · simp only [finalizeBody, h, if_true]
    decide
  · simp only [finalizeBody, h, if_false]
    exact h

/-- On a single-part message the walk sees exactly the root part. -/
theorem firstPlainContent_leaf (ct c : String) (fn : Option String) :
    firstPlainContent (Part.leaf ct c fn) =
      if ct == "text/plain" then some c else none := by
  cases hct : ct == "text/plain" <;>
    simp [firstPlainContent, Part.leavesList, List.find?, hct]

theorem firstHtmlContent_leaf (ct c : String) (fn : Option String) :
    firstHtmlContent (Part.leaf ct c fn) =
      if ct == "text/html" then some c else none := by
  cases hct : ct == "text/html" <;>
    simp [firstHtmlContent, Part.leavesList, List.find?, hct]

/-- Claim C4 counterexample: a multipart message whose first text/plain
part has empty content and which also carries an HTML part.  A plain-text
part exists, yet the body is the tag-stripped HTML ("hi"), not that plain
part's content — the HTML fallback also fires when the first plain part is
empty, not only "if no plain-text part exists". -/
theorem extractBody_html_despite_plain :
    extractBody (Part.multi [Part.leaf ("text/plain") ("") none,
      Part.leaf ("text/html") ("<b>hi</b>") none]) = "hi" ∧
    firstPlainContent (Part.multi [Part.leaf ("text/plain") ("") none,
      Part.leaf ("text/html") ("<b>hi</b>") none]) = some ("") ∧
    ("hi" : String) ≠ "" :=
  ⟨by decide, by decide, by decide⟩

/-- Claim C4 (corrected): for every parsed email the body equals the
amended policy `specBody` — first text/plain part of the depth-first walk
when its content is non-empty; otherwise the first text/html part with
every `<[^<]+?>` span removed; otherwise nothing — with the selected text
whitespace-stripped and the sentinel substituted when that leaves nothing;
in particular the body is never the empty string. -/
theorem extractBody_policy (root : Part) :
    extractBody root = specBody root ∧ extractBody root ≠ "" := by
  constructor
  · cases root with
    | multi ps =>
      rcases hfp : firstPlainContent (Part.multi ps) with _ | c
      · simp [extractBody, specBody, hfp]
      · by_cases hc : c = "" <;> simp [extractBody, specBody, hfp, hc]
    | leaf ct c fn =>
      by_cases h1 : ct = "text/plain"
      · subst h1
        by_cases hc : c = "" <;>
          simp [extractBody, specBody, firstPlainContent_leaf,
            firstHtmlContent_leaf, hc]
      · by_cases h2 : ct = "text/html" <;>
          simp [extractBody, specBody, firstPlainContent_leaf,
            firstHtmlContent_leaf, h1, h2]
  · cases root with
    | multi ps => exact finalizeBody_ne_empty _
    | leaf ct c fn => exact finalizeBody_ne_empty _

/-- Claim C6 counterexample: saving a two-entry index over a previously
persisted one-entry index.  The empty file — the on-disk state right after
the truncating `open(.., 'w')`, before `json.dump` has written anything —
is an observable crash state that is neither the old index's serialization
nor the new one's, refuting "a process kill at any point leaves on disk
either the old index or the fully mutated index". -/
theorem saveIndex_not_atomic :
    "" ∈ saveCrashStates [(("h1"), ⟨"s1", "f1", "d1"⟩),
      (("h2"), ⟨"s2", "f2", "d2"⟩)] ∧
    "" ≠ serializeIndex [(("h1"), ⟨"s1", "f1", "d1"⟩)] ∧
    "" ≠ serializeIndex [(("h1"), ⟨"s1", "f1", "d1"⟩),
      (("h2"), ⟨"s2", "f2", "d2"⟩)] :=
  ⟨by decide, by decide, by decide⟩

/-- Claim C6 (corrected): `_save_processed_emails` is a plain
truncate-then-rewrite, not an atomic replace.  A process kill during the
call leaves some prefix of the new serialization on disk: the completed
write is the last observable state, every crash state is a prefix of the
new contents, and the empty file (old contents already destroyed, nothing
yet written) is among them — so a crash mid-write can lose the old index
and leave a half-written file, to be recovered only by the loader's
corrupt-JSON fallback. -/
theorem saveCrashStates_prefixes (st : Index) :
    (saveCrashStates st).getLast? = some (serializeIndex st) ∧
    "" ∈ saveCrashStates st ∧
    ∀ s ∈ saveCrashStates st, s.data <+: (serializeIndex st).data := by
  refine ⟨?_, ?_, ?_⟩
  · simp [saveCrashStates, List.range_succ, List.getLast?_concat]
    show String.mk ((serializeIndex st).data.take (serializeIndex st).data.length) = _
    rw [List.take_length]
  · simp only [saveCrashStates, List.mem_map]
    exact ⟨0, List.mem_range.mpr (Nat.succ_pos _), rfl⟩
  · intro s hs
    simp only [saveCrashStates, List.mem_map] at hs
    obtain ⟨i, _, rfl⟩ := hs
    exact List.take_prefix _ _

/-- Witness for the corrected C6 at a concrete one-entry index. -/
theorem saveCrashStates_prefixes_witness :
    (saveCrashStates [(("h"), ⟨"s", "f", "d"⟩)]).getLast? =
      some (serializeIndex [(("h"), ⟨"s", "f", "d"⟩)]) ∧
    "" ∈ saveCrashStates [(("h"), ⟨"s", "f", "d"⟩)] ∧
    ("" : String).data <+: (serializeIndex [(("h"), ⟨"s", "f", "d"⟩)]).data := by
  have h := saveCrashStates_prefixes [(("h"), ⟨"s", "f", "d"⟩)]
  exact ⟨h.1, h.2.1, h.2.2 "" h.2.1⟩

/-- Claim C7 counterexample: an index file that exists but cannot be opened
(e.g. a permission error).  `open` raises `OSError`, which the
`try/except json.JSONDecodeError` does not catch, so startup fails instead
of falling back to the empty index — refuting "for every on-disk state
(file absent, file unreadable, or contents that are not valid JSON), the
processor starts with an empty index instead of raising". -/
theorem loadProcessedEmails_unreadable_raises :
    loadProcessedEmails DiskState.unreadable = Except.error LoadError.osError ∧
    loadProcessedEmails DiskState.unreadable ≠ Except.ok ([] : Index) :=
  ⟨rfl, fun h => Except.noConfusion h⟩

/-- Claim C7 (corrected): an absent index file and contents rejected by the
JSON parser both yield the empty index without failing (only
`json.JSONDecodeError` is caught), and valid JSON loads as-is; but an
existing file whose `open` raises is fatal, per the counterexample. -/
theorem loadProcessedEmails_recovery (raw : String) (idx : Index) :
    loadProcessedEmails DiskState.absent = Except.ok [] ∧
    loadProcessedEmails (DiskState.invalidJson raw) = Except.ok [] ∧
    loadProcessedEmails (DiskState.validJson idx) = Except.ok idx :=
  ⟨rfl, rfl, rfl⟩

/-- On an error-free token stream, replacing and dropping coincide. -/
theorem map_getD_of_all_isSome (l : List (Option Char))
    (h : l.all Option.isSome = true) :
    l.map (fun t => t.getD (Char.ofNat 0xFFFD)) = l.filterMap id := by
  induction l with
  | nil => rfl
  | cons a t ih =>
    simp only [List.all_cons, Bool.and_eq_true] at h
    rcases a with _ | c
    · simp at h
    · simp [List.filterMap_cons, ih h.2]

/-- Claim C8 counterexample: the invalid byte 0xFF.  The source opens the
file with `errors='ignore'`, so the byte is dropped and the result is the
empty string; `errors='replace'` would have produced U+FFFD.  The code
tolerates the invalid sequence but does not replace it, refuting
"replacing invalid sequences rather than raising a decode error". -/
theorem decode_ignores_not_replaces :
    decodeIgnore [0xFF] = "" ∧ decodeReplace [0xFF] = "�" ∧
    decodeIgnore [0xFF] ≠ decodeReplace [0xFF] :=
  ⟨by decide, by decide, by decide⟩

/-- Claim C8 (corrected): the read decodes the raw bytes without ever
raising — wherever strict decoding succeeds, the `errors='ignore'` decode
(and the replacing one) agrees with it, and it is total on arbitrary byte
sequences — but invalid sequences are dropped, not replaced. -/
theorem decodeIgnore_refines_strict (bs : List Nat) (s : String)
    (h : decodeStrict bs = some s) :
    decodeIgnore bs = s ∧ decodeReplace bs = s := by
  unfold decodeStrict at h
  by_cases hall : (utf8Tokens bs).all Option.isSome
  · rw [if_pos hall] at h
    obtain rfl := Option.some.inj h
    exact ⟨rfl, congrArg String.mk (map_getD_of_all_isSome _ hall)⟩
  · rw [if_neg hall] at h
    exact absurd h (by simp)

/-- Witness for the corrected C8 on a concrete valid byte sequence. -/
theorem decodeIgnore_refines_strict_witness :
    decodeStrict [104, 105] = some ("hi") ∧
    decodeIgnore [104, 105] = "hi" ∧ decodeReplace [104, 105] = "hi" :=
  ⟨by decide,
    (decodeIgnore_refines_strict [104, 105] ("hi") (by decide)).1,
    (decodeIgnore_refines_strict [104, 105] ("hi") (by decide)).2⟩

/-- Witness for the corrected C4 at a concrete single-part message. -/
theorem extractBody_policy_witness :
    extractBody (Part.leaf ("text/plain") ("x") none) =
      specBody (Part.leaf ("text/plain") ("x") none) ∧
    extractBody (Part.leaf ("text/plain") ("x") none) ≠ "" :=
  extractBody_policy (Part.leaf ("text/plain") ("x") none)

/-- The fingerprint determines the date given the other two fields. -/
theorem generateEmailHash_date_inj (a b d d' : String)
    (h : generateEmailHash a b d = generateEmailHash a b d') : d = d' := by
  have hd : (generateEmailHash a b d).data = (generateEmailHash a b d').data := by
    rw [h]
  simp only [generateEmailHash, string_data_append, List.append_assoc,
    List.singleton_append] at hd
  have h1 := List.append_cancel_left hd
  have h2 : b.data ++ '|' :: d.data = b.data ++ '|' :: d'.data := by
    simpa using h1
  have h3 := List.append_cancel_left h2
  exact string_data_inj (by simpa using h3)

/-- Claim C9 (confirmed): when the Date header is absent or unparsable, the
extracted date is the processing time `now`, so running the extraction on
the same parsed message at two different times yields two different
fingerprints, and a file ingested at the first time is NOT deduplicated at
the second: `process_email_file` against the index holding the first run's
entry does not return Skipped. -/
theorem dateless_fingerprint_clock_dependent (subj snd : Option String)
    (root : Part) (dh : DateHeader) (raw t1 t2 : String) (r : RemoteResult)
    (hdh : dh = DateHeader.absent ∨ dh = DateHeader.unparsable raw)
    (ht : t1 ≠ t2) :
    (extractEmailContent ⟨subj, snd, dh⟩ root t1).date = t1 ∧
    (extractEmailContent ⟨subj, snd, dh⟩ root t2).date = t2 ∧
    emailHashOf (extractEmailContent ⟨subj, snd, dh⟩ root t1) ≠
      emailHashOf (extractEmailContent ⟨subj, snd, dh⟩ root t2) ∧
    (processEmailFile r
      [(emailHashOf (extractEmailContent ⟨subj, snd, dh⟩ root t1),
        metaOf (extractEmailContent ⟨subj, snd, dh⟩ root t1))]
      (some (extractEmailContent ⟨subj, snd, dh⟩ root t2))).outcome ≠
      Outcome.Skipped := by
  have hd1 : extractDateFormatted dh t1 = t1 := by
    rcases hdh with rfl | rfl <;> rfl
  have hd2 : extractDateFormatted dh t2 = t2 := by
    rcases hdh with rfl | rfl <;> rfl
  have hh1 : emailHashOf (extractEmailContent ⟨subj, snd, dh⟩ root t1) =
      generateEmailHash (subj.getD ("No Subject")) (snd.getD ("Unknown Sender")) t1 := by
    simp [emailHashOf, extractEmailContent, hd1]
  have hh2 : emailHashOf (extractEmailContent ⟨subj, snd, dh⟩ root t2) =
      generateEmailHash (subj.getD ("No Subject")) (snd.getD ("Unknown Sender")) t2 := by
    simp [emailHashOf, extractEmailContent, hd2]
  have hne : emailHashOf (extractEmailContent ⟨subj, snd, dh⟩ root t1) ≠
      emailHashOf (extractEmailContent ⟨subj, snd, dh⟩ root t2) := by
    rw [hh1, hh2]
    intro h
    exact ht (generateEmailHash_date_inj _ _ _ _ h)
  have hkey : hasKey
      [(emailHashOf (extractEmailContent ⟨subj, snd, dh⟩ root t1),
        metaOf (extractEmailContent ⟨subj, snd, dh⟩ root t1))]
      (emailHashOf (extractEmailContent ⟨subj, snd, dh⟩ root t2)) = false := by
    simp only [hasKey, List.any_cons, List.any_nil, Bool.or_false]
    exact beq_eq_false_iff_ne.mpr hne
  refine ⟨by simp [extractEmailContent, hd1], by simp [extractEmailContent, hd2],
    hne, ?_⟩
  cases hr : ingestToPrivateGPT r <;> simp [processEmailFile, hkey, hr]

/-- Witness for C9 at a concrete dateless message processed at two times. -/
theorem dateless_fingerprint_clock_dependent_witness :
    (extractEmailContent ⟨some ("s"), some ("f"), DateHeader.absent⟩
      (Part.leaf ("text/plain") ("x") none) ("T1")).date = "T1" ∧
    (extractEmailContent ⟨some ("s"), some ("f"), DateHeader.absent⟩
      (Part.leaf ("text/plain") ("x") none) ("T2")).date = "T2" ∧
    emailHashOf (extractEmailContent ⟨some ("s"), some ("f"), DateHeader.absent⟩
      (Part.leaf ("text/plain") ("x") none) ("T1")) ≠
      emailHashOf (extractEmailContent ⟨some ("s"), some ("f"), DateHeader.absent⟩
        (Part.leaf ("text/plain") ("x") none) ("T2")) ∧
    (processEmailFile (RemoteResult.status 200)
      [(emailHashOf (extractEmailContent ⟨some ("s"), some ("f"), DateHeader.absent⟩
          (Part.leaf ("text/plain") ("x") none) ("T1")),
        metaOf (extractEmailContent ⟨some ("s"), some ("f"), DateHeader.absent⟩
          (Part.leaf ("text/plain") ("x") none) ("T1")))]
      (some (extractEmailContent ⟨some ("s"), some ("f"), DateHeader.absent⟩
        (Part.leaf ("text/plain") ("x") none) ("T2")))).outcome ≠
      Outcome.Skipped :=
  dateless_fingerprint_clock_dependent (some ("s")) (some ("f"))
    (Part.leaf ("text/plain") ("x") none) DateHeader.absent ("raw") ("T1") ("T2")
    (RemoteResult.status 200) (Or.inl rfl) (by decide)

/-- Claim C10 counterexample: a single-part email with a non-empty body
whose part carries a filename (attachment-style Content-Disposition).
`has_attachments` is true but `attachment_count` is 1, not 0, refuting
"for every single-part email with a non-empty body ... attachment_count is
0". -/
theorem hasAttachments_single_part_filename :
    hasAttachments (Part.leaf ("text/plain") ("hello") (some ("file.txt"))) = true ∧
    attachmentCount (Part.leaf ("text/plain") ("hello") (some ("file.txt"))) = 1 :=
  ⟨by decide, by decide⟩

/-- Claim C10 (corrected): `has_attachments` is payload-presence — true for
a single part exactly when its content is non-empty, and for a multipart
container exactly when it has subparts; a single part without a (truthy)
filename contributes no attachment count, so a single-part email with
non-empty body and no filename has `has_attachments` true with
`attachment_count` 0 (the two are not equivalent), while a filename-bearing
single part counts 1 per the counterexample. -/
theorem hasAttachments_payload_presence (ct c : String) (fn : Option String)
    (ps : List Part) :
    (hasAttachments (Part.leaf ct c fn) = true ↔ c ≠ "") ∧
    (hasAttachments (Part.multi ps) = true ↔ ps ≠ []) ∧
    attachmentCount (Part.leaf ct c none) = 0 ∧
    hasAttachments (Part.leaf ("text/plain") ("hello") none) = true ∧
    attachmentCount (Part.leaf ("text/plain") ("hello") none) = 0 := by
  refine ⟨?_, ?_, ?_, by decide, by decide⟩
  · simp [hasAttachments]
  · simp [hasAttachments]
  · simp [attachmentCount, Part.leavesList, List.filter]

/-- Witness for the corrected C10 at a concrete single part. -/
theorem hasAttachments_payload_presence_witness :
    (hasAttachments (Part.leaf ("a") ("x") none) = true ↔ ("x" : String) ≠ "") ∧
    (hasAttachments (Part.multi []) = true ↔ ([] : List Part) ≠ []) ∧
    attachmentCount (Part.leaf ("a") ("x") none) = 0 ∧
    hasAttachments (Part.leaf ("text/plain") ("hello") none) = true ∧
    attachmentCount (Part.leaf ("text/plain") ("hello") none) = 0 :=
  hasAttachments_payload_presence ("a") ("x") none []

/-- Witness for the corrected C5: a rejected basic upload (HTTP 500), an
enhanced upload lost to a connection error, and an enhanced exchange whose
metadata PUT gets HTTP 500 after a 200 upload. -/
theorem ingestionFailure_atomic_witness :
    hasKey [] (emailHashOf ⟨"s", "f", "d", "b"⟩) = false ∧
    ingestToPrivateGPT (RemoteResult.status 500) = false ∧
    ingestToPrivateGPTEnhanced
      ⟨true, RemoteResult.connError, RemoteResult.status 200⟩ = false ∧
    processEmailFile (RemoteResult.status 500) [] (some ⟨"s", "f", "d", "b"⟩) =
      ⟨Outcome.Failed, [], true, false⟩ ∧
    processEmailFileEnhanced ⟨true, RemoteResult.connError, RemoteResult.status 200⟩
      [] (some ⟨"s", "f", "d", "b"⟩) = ⟨Outcome.Failed, [], true, false⟩ ∧
    processEmailFileEnhanced ⟨true, RemoteResult.status 200, RemoteResult.status 500⟩
      [] (some ⟨"s", "f", "d", "b"⟩) =
      ⟨Outcome.Processed,
        insertKey [] (emailHashOf ⟨"s", "f", "d", "b"⟩)
          (metaOf ⟨"s", "f", "d", "b"⟩), true, true⟩ := by
  have h := ingestionFailure_atomic [] ⟨"s", "f", "d", "b"⟩
    (RemoteResult.status 500)
    ⟨true, RemoteResult.connError, RemoteResult.status 200⟩
    ⟨true, RemoteResult.status 200, RemoteResult.status 500⟩
    (by decide) (by decide) (by decide) rfl rfl
  exact ⟨by decide, by decide, by decide, h.1, h.2.1, h.2.2⟩

end PrivateGPT
